import Mathlib

/-!
Shallow embedding of the deadline-analysis core of
`analyze_deadline_results.py` (class `DeadlineAnalyzer`): the text-log
extractor (`parse_client_log`), the trace-JSON extractor (`parse_qlog`),
the shared per-stream state (`self.streams`, a `defaultdict(dict)`
together with the two append-only lists `gap_events` and
`deadline_events`), and the metrics calculator (`calculate_metrics`).

Python values that can be either integers or strings (the timestamps
returned by `_extract_timestamp`, and the numbers parsed from log lines)
are modelled by `PyVal`; Python's `-` operator, which raises `TypeError`
on non-numeric operands, is modelled by `pySub` returning `Except`.
Python dictionaries keyed by stream id are modelled by insertion-ordered
association lists with unique keys; JSON documents by the inductive `J`.
-/

set_option autoImplicit false

namespace DeadlineAnalyzer

/-- A Python value as it appears in the timestamp / duration slots: either an
`int` or a `str`.  `_extract_timestamp` always produces a `str`. -/
inductive PyVal where
  | int (n : Int)
  | str (s : String)
  deriving DecidableEq, Repr

/-- Python's binary `-`: defined on two ints, raises `TypeError` otherwise
(in particular on two strings). -/
def pySub : PyVal → PyVal → Except String Int
  | .int a, .int b => .ok (a - b)
  | _, _ => .error "TypeError: unsupported operand types for -"

/-- A JSON value, as produced by `json.load`. -/
inductive J where
  | null
  | bool (b : Bool)
  | num (n : Int)
  | str (s : String)
  | arr (elems : List J)
  | obj (entries : List (String × J))

/-- Hashable Python dict keys actually used by the analyzer: integers (stream
ids from the text log and numeric/boolean JSON values — Python `True` hashes
as `1` and `False` as `0`) or strings (string-valued JSON `stream_id`s). -/
abbrev StreamKey := Int ⊕ String

/-- One entry of `self.streams[stream_id]`: a Python dict with up to seven
optional keys.  `Option.none` models the key being absent from the dict. -/
structure StreamRec where
  deadline_ms : Option Int := none
  is_hard : Option Bool := none
  set_time : Option PyVal := none
  bytes_dropped : Option Int := none
  completed : Option Bool := none
  completion_time : Option PyVal := none
  blocked_events : Option Int := none
  deriving DecidableEq, Repr

/-- One entry of `self.gap_events`. -/
structure GapEvent where
  stream_id : Int
  bytes_dropped : Int
  time : PyVal
  deriving DecidableEq, Repr

/-- One entry of `self.deadline_events` (trace events whose type mentions
"deadline", kept verbatim). -/
structure DeadlineTraceEvent where
  time : J
  type : String
  data : J

/-- The mutable state of one `DeadlineAnalyzer` instance: the per-stream
record map (insertion-ordered, unique keys, as a Python dict) and the two
append-only event lists. -/
structure AnalyzerState where
  streams : List (StreamKey × StreamRec)
  deadline_events : List DeadlineTraceEvent
  gap_events : List GapEvent

/-- Fresh analyzer state (`__init__`). -/
def initState : AnalyzerState := ⟨[], [], []⟩

/-- Lookup in an insertion-ordered association list (Python `dict.get` /
`in`). -/
def alookup (l : List (StreamKey × StreamRec)) (k : StreamKey) : Option StreamRec :=
  match l with
  | [] => none
  | (k', r) :: rest => if k' = k then some r else alookup rest k

/-- Read-modify-write of one key of the dict: if the key is present the entry
is updated in place, otherwise a new entry `f {}` is appended at the end
(Python dict insertion order; `defaultdict(dict)` creates the empty inner
dict on first access). -/
def aupdate (l : List (StreamKey × StreamRec)) (k : StreamKey) (f : StreamRec → StreamRec) :
    List (StreamKey × StreamRec) :=
  match l with
  | [] => [(k, f {})]
  | (k', r) :: rest => if k' = k then (k', f r) :: rest else (k', r) :: aupdate rest k f

/-- The typed events produced by the two extractors.  The first three come
from the text-log extractor, the last two from the trace-JSON extractor. -/
inductive Ev where
  | deadlineSet (id : Int) (ms : Int) (hard : Bool) (t : PyVal)
  | drop (id : Int) (bytes : Int) (t : PyVal)
  | completed (id : Int) (t : PyVal)
  | blocked (k : StreamKey)
  | deadlineTrace (time : J) (ty : String) (data : J)

/-- The stream key an event addresses (`deadlineTrace` touches no stream
record). -/
def evKey : Ev → Option StreamKey
  | .deadlineSet id _ _ _ => some (.inl id)
  | .drop id _ _ => some (.inl id)
  | .completed id _ => some (.inl id)
  | .blocked k => some k
  | .deadlineTrace _ _ _ => none

/-- The per-record mutation an event performs on the record of its key. -/
def evUpd : Ev → StreamRec → StreamRec
  | .deadlineSet _ ms hard t, r =>
      { r with deadline_ms := some ms, is_hard := some hard, set_time := some t }
  | .drop _ bytes _, r =>
      { r with bytes_dropped := some (r.bytes_dropped.getD 0 + bytes) }
  | .completed _ t, r =>
      { r with completed := some true, completion_time := some t }
  | .blocked _, r =>
      { r with blocked_events := some (r.blocked_events.getD 0 + 1) }
  | .deadlineTrace _ _ _, r => r

/-- Apply one extracted event to the analyzer state, exactly as the bodies of
`parse_client_log` / `parse_qlog` do: stream events read-modify-write the
single record of their key (creating it on first reference), `drop` also
appends a `GapEvent`, `deadlineTrace` only appends to `deadline_events`. -/
def applyEvent (st : AnalyzerState) (e : Ev) : AnalyzerState :=
  match e with
  | .deadlineSet id ms hard t =>
      { st with streams := aupdate st.streams (.inl id) (evUpd (.deadlineSet id ms hard t)) }
  | .drop id bytes t =>
      { st with
        gap_events := st.gap_events ++ [⟨id, bytes, t⟩],
        streams := aupdate st.streams (.inl id) (evUpd (.drop id bytes t)) }
  | .completed id t =>
      { st with streams := aupdate st.streams (.inl id) (evUpd (.completed id t)) }
  | .blocked k =>
      { st with streams := aupdate st.streams k (evUpd (.blocked k)) }
  | .deadlineTrace time ty data =>
      { st with deadline_events := st.deadline_events ++ [⟨time, ty, data⟩] }

/-- Apply a finite sequence of events in order. -/
def applyEvents (st : AnalyzerState) (l : List Ev) : AnalyzerState :=
  l.foldl applyEvent st

/-! ### The text-log line grammar

The three `re.search` patterns of `parse_client_log` and the timestamp
pattern of `_extract_timestamp`, implemented directly on character lists.
Each `try…At` function matches one pattern anchored at the start of its
input; `searchPat` scans start positions left to right, which is exactly
`re.search`'s leftmost-match rule.  In all four patterns every `(\d+)`
group is followed by a non-digit literal, so the greedy maximal munch of
`grabDigits` coincides with the regex backtracking semantics; `.*` inside a
single (newline-free) log line is pure substring search, `containsSub`. -/

/-- Match a literal: if `pat` is a prefix of `cs`, return the rest. -/
def stripLit : List Char → List Char → Option (List Char)
  | [], cs => some cs
  | _, [] => none
  | p :: ps, c :: cs => if p = c then stripLit ps cs else none

/-- Maximal run of decimal digits together with its numeric value (`(\d+)`
followed by `int(...)`); fails when the input does not start with a digit. -/
def grabDigits (cs : List Char) : Option (Nat × List Char) :=
  match cs with
  | [] => none
  | c :: rest =>
    if c.isDigit then
      match grabDigits rest with
      | some (v, r) => some ((c.toNat - 48) * 10 ^ (rest.length - r.length) + v, r)
      | none => some (c.toNat - 48, rest)
    else none

/-- Is `pat` a substring of `cs`?  (The effect of a greedy `.*pat` tail on a
newline-free line.) -/
def containsSub (pat : List Char) : List Char → Bool
  | [] => (stripLit pat []).isSome
  | c :: cs => (stripLit pat (c :: cs)).isSome || containsSub pat cs

/-- `re.search`: try the anchored matcher at every start position, leftmost
success wins. -/
def searchPat {α : Type} (f : List Char → Option α) : List Char → Option α
  | [] => f []
  | c :: cs =>
    match f (c :: cs) with
    | some a => some a
    | none => searchPat f cs

/-- `Set deadline on stream (\d+): (\d+) ms \((soft|hard)\)` anchored at the
start: returns (stream id, deadline ms, is hard). -/
def tryDeadlineSetAt (cs : List Char) : Option (Nat × Nat × Bool) :=
  match stripLit "Set deadline on stream ".data cs with
  | none => none
  | some r1 =>
    match grabDigits r1 with
    | none => none
    | some (id, r2) =>
      match stripLit ": ".data r2 with
      | none => none
      | some r3 =>
        match grabDigits r3 with
        | none => none
        | some (ms, r4) =>
          match stripLit " ms (".data r4 with
          | none => none
          | some r5 =>
            match stripLit "soft)".data r5 with
            | some _ => some (id, ms, false)
            | none =>
              match stripLit "hard)".data r5 with
              | some _ => some (id, ms, true)
              | none => none

/-- `Stream (\d+): Dropped (\d+) bytes due to deadline` anchored at the
start: returns (stream id, bytes dropped). -/
def tryDropAt (cs : List Char) : Option (Nat × Nat) :=
  match stripLit "Stream ".data cs with
  | none => none
  | some r1 =>
    match grabDigits r1 with
    | none => none
    | some (id, r2) =>
      match stripLit ": Dropped ".data r2 with
      | none => none
      | some r3 =>
        match grabDigits r3 with
        | none => none
        | some (b, r4) =>
          match stripLit " bytes due to deadline".data r4 with
          | some _ => some (id, b)
          | none => none

/-- `Stream (\d+).*completed` anchored at the start: returns the stream id
when the digits are followed, anywhere later in the line, by `completed`. -/
def tryCompleteAt (cs : List Char) : Option Nat :=
  match stripLit "Stream ".data cs with
  | none => none
  | some r1 =>
    match grabDigits r1 with
    | none => none
    | some (id, r2) => if containsSub "completed".data r2 then some id else none

/-- Maximal run of digits, kept as raw characters (for the captured
timestamp group). -/
def grabDigitsRaw : List Char → Option (List Char × List Char)
  | [] => none
  | c :: rest =>
    if c.isDigit then
      match grabDigitsRaw rest with
      | some (ds, r) => some (c :: ds, r)
      | none => some ([c], rest)
    else none

/-- `\[(\d+:\d+:\d+)\]` anchored at the start: returns the captured
`digits:digits:digits` group. -/
def tryTimestampAt (cs : List Char) : Option (List Char) :=
  match cs with
  | [] => none
  | c :: r0 =>
    if c = '[' then
      match grabDigitsRaw r0 with
      | none => none
      | some (d1, r1) =>
        match r1 with
        | ':' :: r1' =>
          match grabDigitsRaw r1' with
          | none => none
          | some (d2, r2) =>
            match r2 with
            | ':' :: r2' =>
              match grabDigitsRaw r2' with
              | none => none
              | some (d3, r3) =>
                match r3 with
                | ']' :: _ => some (d1 ++ ':' :: d2 ++ ':' :: d3)
                | _ => none
            | _ => none
        | _ => none
    else none

/-- `_extract_timestamp`: the captured bracketed `H:M:S` token found
anywhere in the line, or the sentinel `"00:00:00"` when no token matches
(the `try/except` around the search can never fire: `re.search` on a
string does not raise). -/
def extract_timestamp (cs : List Char) : String :=
  match searchPat tryTimestampAt cs with
  | some t => ⟨t⟩
  | none => "00:00:00"

/-- The body of `parse_client_log`'s `for line in f` loop: the three
pattern matches are attempted sequentially and independently (no `elif`),
each successful match applying its event to the shared state; every event
carries the line's extracted timestamp (always a string). -/
def parseLine (st : AnalyzerState) (line : String) : AnalyzerState :=
  let cs := line.data
  let ts : PyVal := .str (extract_timestamp cs)
  let st1 :=
    match searchPat tryDeadlineSetAt cs with
    | some (id, ms, hard) => applyEvent st (.deadlineSet id ms hard ts)
    | none => st
  let st2 :=
    match searchPat tryDropAt cs with
    | some (id, b) => applyEvent st1 (.drop id b ts)
    | none => st1
  match searchPat tryCompleteAt cs with
  | some id => applyEvent st2 (.completed id ts)
  | none => st2

/-- `parse_client_log`: fold the line grammar over the file's (newline-free)
lines. -/
def parse_client_log (st : AnalyzerState) (lines : List String) : AnalyzerState :=
  lines.foldl parseLine st

/-! ### The trace-JSON extractor (`parse_qlog`)

`parse_qlog` wraps its whole body in `try/except Exception`.  Failures are
modelled as `Except.error ()`; the caught exception is reported (the
`print` with file path and cause) and processing returns.  Python
operations on `J` values are modelled by the `py…` helpers below; where
Python would reach the same exception by a slightly longer route (for
example indexing a string, or iterating a non-list, which fails on its
first element before any state change), the model raises directly — the
observable outcome (state effect and reported error) is identical. -/

/-- `d[0]` on a JSON value used as a sequence. -/
def pyIndex0 : J → Except Unit J
  | .arr (x :: _) => .ok x
  | _ => .error ()

/-- `d[-1]` on a JSON value used as a sequence. -/
def pyLast : J → Except Unit J
  | .arr l =>
    match l.getLast? with
    | some x => .ok x
    | none => .error ()
  | _ => .error ()

/-- `d.get(key)` (no default): `None` when the key is absent; raises
`AttributeError` when the receiver is not a dict.  A stored JSON `null`
also reads back as Python `None`. -/
def pyGet (o : J) (key : String) : Except Unit (Option J) :=
  match o with
  | .obj entries =>
    match entries.lookup key with
    | some .null => .ok none
    | some v => .ok (some v)
    | none => .ok none
  | _ => .error ()

/-- `d.get(key, dflt)`. -/
def pyGetD (o : J) (key : String) (dflt : J) : Except Unit J :=
  match o with
  | .obj entries =>
    match entries.lookup key with
    | some v => .ok v
    | none => .ok dflt
  | _ => .error ()

/-- Using a JSON value as a Python dict key: ints and strings are hashable
(`True`/`False` hash as `1`/`0`); lists and dicts raise `TypeError`. -/
def jKey : J → Except Unit StreamKey
  | .num n => .ok (.inl n)
  | .str s => .ok (.inr s)
  | .bool b => .ok (.inl (if b then 1 else 0))
  | .null => .ok (.inr "None")
  | _ => .error ()

/-- ASCII lowercasing of one character (`str.lower` on the ASCII event-type
strings the trace format uses). -/
def lowerChar (c : Char) : Char :=
  if 'A' ≤ c ∧ c ≤ 'Z' then Char.ofNat (c.toNat + 32) else c

/-- `str.lower` on an ASCII string, as a character list. -/
def lowerStr (cs : List Char) : List Char := cs.map lowerChar

/-- One iteration of `parse_qlog`'s `for event in events` loop.  Within one
iteration no state mutation can precede a raised exception: the type string
`'stream_data_blocked'` does not contain `'deadline'`, so the two branches
are exclusive, and each branch evaluates all fallible subexpressions before
it mutates. -/
def qlogStep (st : AnalyzerState) (event : J) : Except Unit AnalyzerState :=
  match pyLast event with
  | .error _ => .error ()
  | .ok event_data =>
    match pyGetD event_data "type" (.str "") with
    | .error _ => .error ()
    | .ok tv =>
      match tv with
      | .str event_type =>
        let afterDeadline : Except Unit AnalyzerState :=
          if containsSub "deadline".data (lowerStr event_type.data) then
            match pyIndex0 event with
            | .error _ => .error ()
            | .ok t0 => .ok (applyEvent st (.deadlineTrace t0 event_type event_data))
          else .ok st
        match afterDeadline with
        | .error _ => .error ()
        | .ok st1 =>
          if event_type = "stream_data_blocked" then
            match pyGet event_data "stream_id" with
            | .error _ => .error ()
            | .ok none => .ok st1
            | .ok (some v) =>
              match jKey v with
              | .error _ => .error ()
              | .ok k => .ok (applyEvent st1 (.blocked k))
          else .ok st1
      | _ => .error ()

/-- The event loop: stops at the first raising event, keeping the state
reached by the successfully processed prefix, and reports the error. -/
def qlogLoop (st : AnalyzerState) : List J → AnalyzerState × Bool
  | [] => (st, false)
  | e :: es =>
    match qlogStep st e with
    | .error _ => (st, true)
    | .ok st' => qlogLoop st' es

/-- The pre-loop extraction
`qlog_data.get('traces', [{}])[0].get('events', [])`, including the check
that the events value is iterable as a list of events. -/
def qlogEventsOf (qlog_data : J) : Except Unit (List J) :=
  match pyGetD qlog_data "traces" (.arr [.obj []]) with
  | .error _ => .error ()
  | .ok traces =>
    match pyIndex0 traces with
    | .error _ => .error ()
    | .ok t0 =>
      match pyGetD t0 "events" (.arr []) with
      | .error _ => .error ()
      | .ok evs =>
        match evs with
        | .arr l => .ok l
        | _ => .error ()

/-- `parse_qlog`.  The input is the outcome of `json.load` on the file
(`Except.error` = unreadable file or malformed JSON, raising before any
event is processed).  The returned flag records whether the `except`
handler ran (the failure was printed with file path and cause). -/
def parse_qlog (doc : Except String J) (st : AnalyzerState) : AnalyzerState × Bool :=
  match doc with
  | .error _ => (st, true)
  | .ok qlog_data =>
    match qlogEventsOf qlog_data with
    | .error _ => (st, true)
    | .ok events => qlogLoop st events

/-- The event list a document yields before the loop starts (empty when the
parse or the pre-loop extraction raises). -/
def docEvents (doc : Except String J) : List J :=
  match doc with
  | .error _ => []
  | .ok qlog_data =>
    match qlogEventsOf qlog_data with
    | .error _ => []
    | .ok events => events

/-- Fold of the event loop ignoring failures (used to describe the state
reached by a successfully processed prefix). -/
def qlogFold (st : AnalyzerState) (l : List J) : AnalyzerState :=
  l.foldl (fun s e => match qlogStep s e with | .ok s' => s' | .error _ => s) st

/-! ### The metrics calculator (`calculate_metrics`)

A pure function of the finalized record set.  The loop accumulators mirror
the `metrics` dict during the `for stream_id, stream_data in
self.streams.items()` loop (where `completion_rate` still holds a count
and `avg_deadline_margin` still holds the margin list); the final record
holds the values after the rate/mean post-processing, with Python float
division modelled by exact rational division.  The only fallible
operation is the subtraction `completion_time - set_time`, which raises
`TypeError` whenever the two stored timestamps are not both ints. -/

/-- The `metrics` dict at the end of `calculate_metrics`. -/
structure Metrics where
  total_streams : Nat
  streams_with_deadlines : Nat
  hard_deadlines : Nat
  soft_deadlines : Nat
  deadlines_met : Nat
  total_bytes_dropped : Int
  streams_with_drops : Nat
  completion_rate : ℚ
  avg_deadline_margin : ℚ
  deadline_compliance_rate : ℚ
  deriving DecidableEq, Repr

/-- The in-loop accumulators of `calculate_metrics`. -/
structure MetricsAcc where
  streams_with_deadlines : Nat := 0
  hard_deadlines : Nat := 0
  soft_deadlines : Nat := 0
  deadlines_met : Nat := 0
  total_bytes_dropped : Int := 0
  streams_with_drops : Nat := 0
  completed_count : Nat := 0
  margins : List Int := []
  deriving DecidableEq, Repr

/-- One iteration of the metrics loop over `(stream_id, stream_data)`. -/
def metricsStep (acc : MetricsAcc) (r : StreamRec) : Except String MetricsAcc :=
  let deadlinePart : Except String MetricsAcc :=
    match r.deadline_ms with
    | none => .ok acc
    | some d =>
      let acc1 := { acc with streams_with_deadlines := acc.streams_with_deadlines + 1 }
      let acc2 :=
        if r.is_hard.getD false then
          { acc1 with hard_deadlines := acc1.hard_deadlines + 1 }
        else
          { acc1 with soft_deadlines := acc1.soft_deadlines + 1 }
      match r.completion_time, r.set_time with
      | some c, some s =>
        match pySub c s with
        | .error e => .error e
        | .ok dur =>
          if dur ≤ d then
            .ok { acc2 with
                  deadlines_met := acc2.deadlines_met + 1,
                  margins := acc2.margins ++ [d - dur] }
          else .ok acc2
      | _, _ => .ok acc2
  match deadlinePart with
  | .error e => .error e
  | .ok a =>
    let a2 :=
      match r.bytes_dropped with
      | some b =>
        { a with
          total_bytes_dropped := a.total_bytes_dropped + b,
          streams_with_drops := a.streams_with_drops + 1 }
      | none => a
    .ok (if r.completed.getD false then
          { a2 with completed_count := a2.completed_count + 1 }
        else a2)

/-- The metrics loop over the record list. -/
def metricsFold (acc : MetricsAcc) : List (StreamKey × StreamRec) → Except String MetricsAcc
  | [] => .ok acc
  | (_, r) :: rest =>
    match metricsStep acc r with
    | .error e => .error e
    | .ok acc' => metricsFold acc' rest

/-- `calculate_metrics` over a finalized record set: loop, then the guarded
rate calculations and the empty-mean fallback. -/
def calculate_metrics (streams : List (StreamKey × StreamRec)) : Except String Metrics :=
  match metricsFold {} streams with
  | .error e => .error e
  | .ok acc =>
    .ok {
      total_streams := streams.length,
      streams_with_deadlines := acc.streams_with_deadlines,
      hard_deadlines := acc.hard_deadlines,
      soft_deadlines := acc.soft_deadlines,
      deadlines_met := acc.deadlines_met,
      total_bytes_dropped := acc.total_bytes_dropped,
      streams_with_drops := acc.streams_with_drops,
      deadline_compliance_rate :=
        if 0 < acc.streams_with_deadlines then
          (acc.deadlines_met : ℚ) / (acc.streams_with_deadlines : ℚ)
        else 0,
      completion_rate :=
        if 0 < streams.length then
          (acc.completed_count : ℚ) / (streams.length : ℚ)
        else 0,
      avg_deadline_margin :=
        if acc.margins.isEmpty then 0
        else ((acc.margins.map (Int.cast : Int → ℚ)).sum) / (acc.margins.length : ℚ) }

/-- The cumulative `bytes_dropped` of a stream key (0 when the record or the
field is absent, as in `dict.get('bytes_dropped', 0)`). -/
def bytesOf (st : AnalyzerState) (k : StreamKey) : Int :=
  ((alookup st.streams k).getD {}).bytes_dropped.getD 0

/-- `Interleaves a b l`: `l` is an interleaving of `a` and `b` preserving the
internal order of each. -/
inductive Interleaves : List Ev → List Ev → List Ev → Prop
  | nil : Interleaves [] [] []
  | left {a b l : List Ev} (e : Ev) : Interleaves a b l → Interleaves (e :: a) b (e :: l)
  | right {a b l : List Ev} (e : Ev) : Interleaves a b l → Interleaves a (e :: b) (e :: l)

/-- Folding the per-record mutations of a list of events over one optional
record (creating it from the empty dict when absent). -/
def recsFold (o : Option StreamRec) (l : List Ev) : Option StreamRec :=
  l.foldl (fun o e => some (evUpd e (o.getD {}))) o

/-- The met-deadline test `calculate_metrics` performs on one record:
deadline, completion time and set time all present, the subtraction
defined, and the duration within the deadline. -/
def metRec (r : StreamRec) : Bool :=
  match r.deadline_ms, r.completion_time, r.set_time with
  | some d, some c, some s =>
    match pySub c s with
    | .ok dur => decide (dur ≤ d)
    | .error _ => false
  | _, _, _ => false

/-! ### Association-list and event-application lemmas -/

theorem alookup_aupdate_self (l : List (StreamKey × StreamRec)) (k : StreamKey)
    (f : StreamRec → StreamRec) :
    alookup (aupdate l k f) k = some (f ((alookup l k).getD {})) := by
  induction l with
  | nil => simp [alookup, aupdate]
  | cons p rest ih =>
    obtain ⟨k', r⟩ := p
    by_cases hk : k' = k
    · subst hk
      simp [alookup, aupdate]
    · simp [alookup, aupdate, hk, ih]

theorem alookup_aupdate_ne (l : List (StreamKey × StreamRec)) (k k' : StreamKey)
    (f : StreamRec → StreamRec) (h : k' ≠ k) :
    alookup (aupdate l k f) k' = alookup l k' := by
  have h2 : k ≠ k' := Ne.symm h
  induction l with
  | nil => simp [alookup, aupdate, h2]
  | cons p rest ih =>
    obtain ⟨k'', r⟩ := p
    by_cases hk : k'' = k
    · subst hk
      simp [alookup, aupdate, h2]
    · simp [alookup, aupdate, hk, ih]

theorem aupdate_idem (l : List (StreamKey × StreamRec)) (k : StreamKey)
    (f : StreamRec → StreamRec) (hf : ∀ r, f (f r) = f r) :
    aupdate (aupdate l k f) k f = aupdate l k f := by
  induction l with
  | nil => simp [aupdate, hf]
  | cons p rest ih =>
    obtain ⟨k', r⟩ := p
    by_cases hk : k' = k
    · subst hk
      simp [aupdate, hf]
    · simp [aupdate, hk, ih]

/-- A keyed event rewrites `streams` by a read-modify-write of its key. -/
theorem applyEvent_streams_key (st : AnalyzerState) (e : Ev) (k : StreamKey)
    (h : evKey e = some k) :
    (applyEvent st e).streams = aupdate st.streams k (evUpd e) := by
  cases e <;> simp_all [applyEvent, evKey]

/-- An unkeyed event (`deadlineTrace`) leaves `streams` untouched. -/
theorem applyEvent_streams_unkeyed (st : AnalyzerState) (e : Ev)
    (h : evKey e = none) :
    (applyEvent st e).streams = st.streams := by
  cases e <;> simp_all [applyEvent, evKey]

/-- C2: every pair of events addressing the same stream identifier — one from
the text-log extractor, one from the trace-JSON extractor, or any other
combination — updates the one shared record of that identifier: the record
is created lazily (from the empty dict) on first reference by whichever
event comes first, the second event mutates that same record, and records
of every other identifier are untouched. -/
theorem stream_key_shared_record (st : AnalyzerState) (e e' : Ev) (k : StreamKey)
    (h : evKey e = some k) (h' : evKey e' = some k) :
    alookup (applyEvent st e).streams k
      = some (evUpd e ((alookup st.streams k).getD {}))
    ∧ alookup (applyEvent (applyEvent st e) e').streams k
      = some (evUpd e' (evUpd e ((alookup st.streams k).getD {})))
    ∧ ∀ k', k' ≠ k → alookup (applyEvent st e).streams k' = alookup st.streams k' := by
  refine ⟨?_, ?_, ?_⟩
  · rw [applyEvent_streams_key st e k h, alookup_aupdate_self]
  · rw [applyEvent_streams_key _ e' k h', alookup_aupdate_self,
      applyEvent_streams_key st e k h, alookup_aupdate_self]
    simp
  · intro k' hk
    rw [applyEvent_streams_key st e k h, alookup_aupdate_ne _ _ _ _ hk]

/-- Witness for C2: a text-log `DeadlineSet` for stream 4 followed by a
trace-JSON `StreamBlocked` for stream 4 lands in the single shared record. -/
theorem stream_key_shared_record_witness :
    alookup (applyEvent initState (.deadlineSet 4 100 true (.str "00:00:01"))).streams (.inl 4)
      = some (evUpd (.deadlineSet 4 100 true (.str "00:00:01"))
          ((alookup initState.streams (.inl 4)).getD {}))
    ∧ alookup (applyEvent (applyEvent initState (.deadlineSet 4 100 true (.str "00:00:01")))
          (.blocked (.inl 4))).streams (.inl 4)
      = some (evUpd (.blocked (.inl 4))
          (evUpd (.deadlineSet 4 100 true (.str "00:00:01"))
            ((alookup initState.streams (.inl 4)).getD {})))
    ∧ ∀ k', k' ≠ (Sum.inl 4 : StreamKey) →
        alookup (applyEvent initState (.deadlineSet 4 100 true (.str "00:00:01"))).streams k'
          = alookup initState.streams k' :=
  stream_key_shared_record initState (.deadlineSet 4 100 true (.str "00:00:01"))
    (.blocked (.inl 4)) (.inl 4) rfl rfl

/-- C8: applying the same `DeadlineSet` event twice leaves the whole
analyzer state exactly as after one application, while applying the same
`Drop` of `b` bytes twice adds `2 * b` to the stream's `bytes_dropped`
(`Drop` is additive, not idempotent). -/
theorem deadlineSet_idem_drop_additive (st : AnalyzerState) (id ms : Int)
    (hard : Bool) (t : PyVal) (b : Int) :
    applyEvent (applyEvent st (.deadlineSet id ms hard t)) (.deadlineSet id ms hard t)
      = applyEvent st (.deadlineSet id ms hard t)
    ∧ bytesOf (applyEvent (applyEvent st (.drop id b t)) (.drop id b t)) (.inl id)
      = bytesOf st (.inl id) + 2 * b := by
  constructor
  · show ({ st with streams := _ } : AnalyzerState) = { st with streams := _ }
    simp only [applyEvent]
    rw [aupdate_idem]
    intro r
    rfl
  · unfold bytesOf
    rw [applyEvent_streams_key _ (.drop id b t) (.inl id) rfl, alookup_aupdate_self,
      applyEvent_streams_key _ (.drop id b t) (.inl id) rfl, alookup_aupdate_self]
    simp [evUpd]
    ring

/-! ### Interleaving and per-key projection (C5) -/

theorem Interleaves.filter {a b l : List Ev} (p : Ev → Bool)
    (h : Interleaves a b l) :
    Interleaves (a.filter p) (b.filter p) (l.filter p) := by
  induction h with
  | nil => exact .nil
  | left e _ ih =>
    by_cases hp : p e
    · simpa [List.filter, hp] using Interleaves.left e ih
    · simpa [List.filter, hp] using ih
  | right e _ ih =>
    by_cases hp : p e
    · simpa [List.filter, hp] using Interleaves.right e ih
    · simpa [List.filter, hp] using ih

theorem Interleaves.eq_of_right_nil {a b l : List Ev} (h : Interleaves a b l)
    (hb : b = []) : l = a := by
  induction h with
  | nil => rfl
  | left e _ ih => rw [ih hb]
  | right e _ _ => exact absurd hb (by simp)

theorem Interleaves.eq_of_left_nil {a b l : List Ev} (h : Interleaves a b l)
    (ha : a = []) : l = b := by
  induction h with
  | nil => rfl
  | left e _ _ => exact absurd ha (by simp)
  | right e _ ih => rw [ih ha]

/-- The record a key holds after a batch of events is the fold of exactly
that key's events over the record it held before: the aggregator state is a
per-key product. -/
theorem alookup_applyEvents (l : List Ev) (st : AnalyzerState) (k : StreamKey) :
    alookup (applyEvents st l).streams k
      = recsFold (alookup st.streams k) (l.filter (fun e => evKey e = some k)) := by
  induction l generalizing st with
  | nil => rfl
  | cons e rest ih =>
    have hstep : applyEvents st (e :: rest) = applyEvents (applyEvent st e) rest := rfl
    rw [hstep, ih]
    rcases he : evKey e with _ | k'
    · rw [applyEvent_streams_unkeyed st e he]
      simp [List.filter, he]
    · by_cases hk : k' = k
      · subst hk
        rw [applyEvent_streams_key st e k' he, alookup_aupdate_self]
        simp [List.filter, he, recsFold]
      · rw [applyEvent_streams_key st e k' he,
          alookup_aupdate_ne _ _ _ _ (fun hh => hk hh.symm)]
        simp [List.filter, he, hk]

/-- C5 (amended): for two event sequences touching disjoint sets of stream
identifiers, every interleaving that preserves each sequence's internal
order yields the same per-stream record map (the same lookup result for
every key); the two global append-only sequences, by contrast, depend on
the interleaving order (see the counterexample). -/
theorem interleaving_same_records (a b l₁ l₂ : List Ev)
    (hdisj : ∀ x ∈ a.filterMap evKey, x ∉ b.filterMap evKey)
    (h1 : Interleaves a b l₁) (h2 : Interleaves a b l₂)
    (st : AnalyzerState) (k : StreamKey) :
    alookup (applyEvents st l₁).streams k = alookup (applyEvents st l₂).streams k := by
  rw [alookup_applyEvents, alookup_applyEvents]
  have hsame : l₁.filter (fun e => evKey e = some k)
      = l₂.filter (fun e => evKey e = some k) := by
    set p : Ev → Bool := fun e => evKey e = some k with hp
    have f1 := h1.filter p
    have f2 := h2.filter p
    by_cases hbk : b.filter p = []
    · rw [f1.eq_of_right_nil hbk, f2.eq_of_right_nil hbk]
    · have hak : a.filter p = [] := by
        rcases List.exists_mem_of_ne_nil _ hbk with ⟨eb, heb⟩
        have hbmem : k ∈ b.filterMap evKey := by
          rcases List.mem_filter.mp heb with ⟨hmem, hpe⟩
          exact List.mem_filterMap.mpr ⟨eb, hmem, by simpa [hp] using hpe⟩
        by_contra hane
        rcases List.exists_mem_of_ne_nil _ hane with ⟨ea, hea⟩
        have hamem : k ∈ a.filterMap evKey := by
          rcases List.mem_filter.mp hea with ⟨hmem, hpe⟩
          exact List.mem_filterMap.mpr ⟨ea, hmem, by simpa [hp] using hpe⟩
        exact hdisj k hamem hbmem
      rw [f1.eq_of_left_nil hak, f2.eq_of_left_nil hak]
  rw [hsame]

/-- Witness for C5's amended theorem: two singleton `Drop` sequences on
streams 1 and 2, the two opposite interleavings, looked up at stream 1. -/
theorem interleaving_same_records_witness :
    alookup (applyEvents initState
        [.drop 1 5 (.str "00:00:00"), .drop 2 7 (.str "00:00:00")]).streams (.inl 1)
      = alookup (applyEvents initState
        [.drop 2 7 (.str "00:00:00"), .drop 1 5 (.str "00:00:00")]).streams (.inl 1) :=
  interleaving_same_records
    [.drop 1 5 (.str "00:00:00")] [.drop 2 7 (.str "00:00:00")]
    [.drop 1 5 (.str "00:00:00"), .drop 2 7 (.str "00:00:00")]
    [.drop 2 7 (.str "00:00:00"), .drop 1 5 (.str "00:00:00")]
    (by simp [evKey])
    (.left _ (.right _ .nil))
    (.right _ (.left _ .nil))
    initState (.inl 1)

/-- C5 counterexample: the same two disjoint singleton sequences, applied in
the two opposite interleavings, do NOT yield the same final aggregator
state — the global gap-event sequence comes out in a different order, so
"the same final aggregator state" as claimed is false. -/
theorem interleaving_counterexample :
    Interleaves [.drop 1 5 (.str "00:00:00")] [.drop 2 7 (.str "00:00:00")]
      [.drop 1 5 (.str "00:00:00"), .drop 2 7 (.str "00:00:00")]
    ∧ Interleaves [.drop 1 5 (.str "00:00:00")] [.drop 2 7 (.str "00:00:00")]
      [.drop 2 7 (.str "00:00:00"), .drop 1 5 (.str "00:00:00")]
    ∧ (∀ x ∈ [Ev.drop 1 5 (.str "00:00:00")].filterMap evKey,
        x ∉ [Ev.drop 2 7 (.str "00:00:00")].filterMap evKey)
    ∧ (applyEvents initState
        [.drop 1 5 (.str "00:00:00"), .drop 2 7 (.str "00:00:00")]).gap_events
      ≠ (applyEvents initState
        [.drop 2 7 (.str "00:00:00"), .drop 1 5 (.str "00:00:00")]).gap_events :=
  ⟨.left _ (.right _ .nil), .right _ (.left _ .nil), by simp [evKey], by decide⟩

/-! ### Metrics lemmas (C4, C7, C9) -/

theorem metRec_deadline_present {r : StreamRec} (h : metRec r = true) :
    r.deadline_ms.isSome := by
  unfold metRec at h
  rcases hd : r.deadline_ms with _ | d <;>
    rcases hc : r.completion_time with _ | c <;>
    rcases hs : r.set_time with _ | s <;>
    simp_all

theorem metRec_times_present {r : StreamRec} (h : metRec r = true) :
    r.completion_time.isSome ∧ r.set_time.isSome := by
  unfold metRec at h
  rcases hd : r.deadline_ms with _ | d <;>
    rcases hc : r.completion_time with _ | c <;>
    rcases hs : r.set_time with _ | s <;>
    simp_all

set_option maxHeartbeats 1600000 in
/-- How one loop iteration moves each accumulator. -/
theorem metricsStep_counts (acc : MetricsAcc) (r : StreamRec) (acc' : MetricsAcc)
    (h : metricsStep acc r = .ok acc') :
    acc'.deadlines_met = acc.deadlines_met + (if metRec r then 1 else 0)
    ∧ acc'.streams_with_deadlines
        = acc.streams_with_deadlines + (if r.deadline_ms.isSome then 1 else 0)
    ∧ acc'.hard_deadlines + acc'.soft_deadlines
        = acc.hard_deadlines + acc.soft_deadlines + (if r.deadline_ms.isSome then 1 else 0)
    ∧ acc'.streams_with_drops
        = acc.streams_with_drops + (if r.bytes_dropped.isSome then 1 else 0)
    ∧ acc'.total_bytes_dropped = acc.total_bytes_dropped + r.bytes_dropped.getD 0 := by
  rcases hd : r.deadline_ms with _ | d <;>
    rcases hc : r.completion_time with _ | c <;>
    rcases hs : r.set_time with _ | s <;>
    rcases hb : r.bytes_dropped with _ | b <;>
    simp only [metricsStep, metRec, hd, hc, hs, hb] at h ⊢
  all_goals try (rcases hps : pySub c s with e | dur <;> simp only [hps] at h ⊢)
  all_goals try split_ifs at h ⊢
  all_goals cases h
  all_goals simp_all
  all_goals omega

/-- How the whole metrics loop moves each accumulator. -/
theorem metricsFold_counts (l : List (StreamKey × StreamRec)) (acc acc' : MetricsAcc)
    (h : metricsFold acc l = .ok acc') :
    acc'.deadlines_met = acc.deadlines_met + l.countP (fun p => metRec p.2)
    ∧ acc'.streams_with_deadlines
        = acc.streams_with_deadlines + l.countP (fun p => p.2.deadline_ms.isSome)
    ∧ acc'.hard_deadlines + acc'.soft_deadlines
        = acc.hard_deadlines + acc.soft_deadlines + l.countP (fun p => p.2.deadline_ms.isSome)
    ∧ acc'.streams_with_drops
        = acc.streams_with_drops + l.countP (fun p => p.2.bytes_dropped.isSome)
    ∧ acc'.total_bytes_dropped
        = acc.total_bytes_dropped + (l.map (fun p => p.2.bytes_dropped.getD 0)).sum := by
  induction l generalizing acc with
  | nil =>
    cases h
    simp
  | cons p rest ih =>
    obtain ⟨k, r⟩ := p
    rcases hstep : metricsStep acc r with e | acc1
    · simp only [metricsFold, hstep] at h
      cases h
    · simp only [metricsFold, hstep] at h
      obtain ⟨h1, h2, h3, h4, h5⟩ := metricsStep_counts acc r acc1 hstep
      obtain ⟨g1, g2, g3, g4, g5⟩ := ih acc1 h
      simp only [List.countP_cons, List.map_cons, List.sum_cons]
      rcases hmr : metRec r <;> rcases hdp : r.deadline_ms.isSome <;>
        rcases hbp : r.bytes_dropped.isSome <;>
        simp_all <;>
        omega

/-- `metricsFold_counts` specialized to the fresh accumulator. -/
theorem metricsFold_counts_init (l : List (StreamKey × StreamRec)) (acc' : MetricsAcc)
    (h : metricsFold {} l = .ok acc') :
    acc'.deadlines_met = l.countP (fun p => metRec p.2)
    ∧ acc'.streams_with_deadlines = l.countP (fun p => p.2.deadline_ms.isSome)
    ∧ acc'.hard_deadlines + acc'.soft_deadlines
        = l.countP (fun p => p.2.deadline_ms.isSome)
    ∧ acc'.streams_with_drops = l.countP (fun p => p.2.bytes_dropped.isSome)
    ∧ acc'.total_bytes_dropped = (l.map (fun p => p.2.bytes_dropped.getD 0)).sum := by
  simpa using metricsFold_counts l {} acc' h

/-- Count is monotone along pointwise implication of the predicates. -/
theorem countP_le_of_imp {α : Type} (p q : α → Bool) (l : List α)
    (h : ∀ a ∈ l, p a = true → q a = true) :
    l.countP p ≤ l.countP q := by
  induction l with
  | nil => simp
  | cons a l ih =>
    have ih2 := ih (fun x hx hp => h x (List.mem_cons_of_mem a hx) hp)
    by_cases hp : p a = true
    · have hq := h a (List.mem_cons_self a l) hp
      simp only [List.countP_cons, hp, hq, if_true]
      omega
    · simp only [List.countP_cons]
      split_ifs <;> omega

/-- C4: in every successful metrics computation, `deadlines_met` counts
exactly the records whose completion time, set time (and deadline) are
present with defined subtraction and duration within the deadline; a record
missing either timestamp is never part of that count. -/
theorem deadlines_met_is_count (l : List (StreamKey × StreamRec)) (m : Metrics)
    (h : calculate_metrics l = .ok m) :
    m.deadlines_met = l.countP (fun p => metRec p.2)
    ∧ ∀ p ∈ l, (p.2.completion_time = none ∨ p.2.set_time = none) → metRec p.2 = false := by
  constructor
  · unfold calculate_metrics at h
    rcases hf : metricsFold {} l with e | acc <;> rw [hf] at h <;> cases h
    exact (metricsFold_counts_init l acc hf).1
  · intro p _ hnone
    rcases hmr : metRec p.2 with _ | _
    · rfl
    · obtain ⟨hc, hs⟩ := metRec_times_present hmr
      rcases hnone with hh | hh <;> simp_all

/-- Witness for C4: a one-record set with integer timestamps 0 and 80 and
deadline 100 ms (the spec's compliance scenario), counted as met. -/
theorem deadlines_met_is_count_witness :
    ∃ m, calculate_metrics
        [((Sum.inl 4 : StreamKey),
          ({ deadline_ms := some 100, set_time := some (.int 0),
             completion_time := some (.int 80) } : StreamRec))] = Except.ok m
      ∧ m.deadlines_met
          = List.countP (fun p => metRec p.2)
              [((Sum.inl 4 : StreamKey),
                ({ deadline_ms := some 100, set_time := some (.int 0),
                   completion_time := some (.int 80) } : StreamRec))]
      ∧ m.deadlines_met = 1 := by
  obtain ⟨m, hm⟩ : ∃ m, calculate_metrics
      [((Sum.inl 4 : StreamKey),
        ({ deadline_ms := some 100, set_time := some (.int 0),
           completion_time := some (.int 80) } : StreamRec))] = Except.ok m := ⟨_, rfl⟩
  exact ⟨m, hm, (deadlines_met_is_count _ _ hm).1,
    (deadlines_met_is_count _ _ hm).1.trans (by decide)⟩

/-- C7 (amended): `streams_with_drops` counts the records whose
`bytes_dropped` field is present — set by any `Drop` event, a zero-byte
drop included — and `total_bytes_dropped` is the sum of `bytes_dropped`
over all records. -/
theorem drops_metrics (l : List (StreamKey × StreamRec)) (m : Metrics)
    (h : calculate_metrics l = .ok m) :
    m.streams_with_drops = l.countP (fun p => p.2.bytes_dropped.isSome)
    ∧ m.total_bytes_dropped = (l.map (fun p => p.2.bytes_dropped.getD 0)).sum := by
  unfold calculate_metrics at h
  rcases hf : metricsFold {} l with e | acc <;> rw [hf] at h <;> cases h
  obtain ⟨-, -, -, g4, g5⟩ := metricsFold_counts_init l acc hf
  exact ⟨g4, g5⟩

/-- Witness for C7's amended theorem: the record set produced by a
zero-byte drop line. -/
theorem drops_metrics_witness :
    ∃ m, calculate_metrics (parse_client_log initState
        ["Stream 1: Dropped 0 bytes due to deadline"]).streams = Except.ok m
      ∧ m.streams_with_drops
          = (parse_client_log initState
              ["Stream 1: Dropped 0 bytes due to deadline"]).streams.countP
              (fun p => p.2.bytes_dropped.isSome)
      ∧ m.total_bytes_dropped
          = ((parse_client_log initState
              ["Stream 1: Dropped 0 bytes due to deadline"]).streams.map
              (fun p => p.2.bytes_dropped.getD 0)).sum := by
  obtain ⟨m, hm⟩ : ∃ m, calculate_metrics (parse_client_log initState
      ["Stream 1: Dropped 0 bytes due to deadline"]).streams = Except.ok m := ⟨_, rfl⟩
  exact ⟨m, hm, (drops_metrics _ _ hm).1, (drops_metrics _ _ hm).2⟩

/-- C7 counterexample: after the (valid) log line `Stream 1: Dropped 0
bytes due to deadline`, the record for stream 1 carries `bytes_dropped =
0`, so `streams_with_drops` is 1 while no record has `bytes_dropped > 0`
— the claimed equality with the strictly-positive count is false. -/
theorem drops_count_counterexample :
    ∃ m, calculate_metrics (parse_client_log initState
        ["Stream 1: Dropped 0 bytes due to deadline"]).streams = Except.ok m
      ∧ m.streams_with_drops = 1
      ∧ (parse_client_log initState
          ["Stream 1: Dropped 0 bytes due to deadline"]).streams.countP
          (fun p => decide (0 < p.2.bytes_dropped.getD 0)) = 0 := by
  refine ⟨_, rfl, ?_, ?_⟩
  · decide
  · decide

/-- C9: hard and soft deadline counts partition the deadline-bearing
records, `deadlines_met` never exceeds `streams_with_deadlines` (a record
is counted as met only when it carries `deadline_ms`), and the compliance
rate always lies in `[0, 1]`. -/
theorem compliance_rate_bounds (l : List (StreamKey × StreamRec)) (m : Metrics)
    (h : calculate_metrics l = .ok m) :
    m.hard_deadlines + m.soft_deadlines = m.streams_with_deadlines
    ∧ m.deadlines_met ≤ m.streams_with_deadlines
    ∧ 0 ≤ m.deadline_compliance_rate ∧ m.deadline_compliance_rate ≤ 1 := by
  unfold calculate_metrics at h
  rcases hf : metricsFold {} l with e | acc <;> rw [hf] at h <;> cases h
  obtain ⟨g1, g2, g3, -, -⟩ := metricsFold_counts_init l acc hf
  have hle : acc.deadlines_met ≤ acc.streams_with_deadlines := by
    rw [g1, g2]
    exact countP_le_of_imp _ _ l
      (fun p _ hp => by simpa using metRec_deadline_present hp)
  refine ⟨?_, hle, ?_, ?_⟩
  · show acc.hard_deadlines + acc.soft_deadlines = acc.streams_with_deadlines
    omega
  · show (0 : ℚ) ≤ if 0 < acc.streams_with_deadlines then
        (acc.deadlines_met : ℚ) / (acc.streams_with_deadlines : ℚ) else 0
    split_ifs
    · positivity
    · exact le_refl 0
  · show (if 0 < acc.streams_with_deadlines then
        (acc.deadlines_met : ℚ) / (acc.streams_with_deadlines : ℚ) else 0) ≤ 1
    split_ifs with hpos
    · rw [div_le_one (by exact_mod_cast hpos)]
      exact_mod_cast hle
    · norm_num

/-- Witness for C9: the spec's compliance scenario record set. -/
theorem compliance_rate_bounds_witness :
    ∃ m, calculate_metrics
        [((Sum.inl 4 : StreamKey),
          ({ deadline_ms := some 100, set_time := some (.int 0),
             completion_time := some (.int 80) } : StreamRec))] = Except.ok m
      ∧ m.hard_deadlines + m.soft_deadlines = m.streams_with_deadlines
      ∧ m.deadlines_met ≤ m.streams_with_deadlines
      ∧ 0 ≤ m.deadline_compliance_rate ∧ m.deadline_compliance_rate ≤ 1 := by
  obtain ⟨m, hm⟩ : ∃ m, calculate_metrics
      [((Sum.inl 4 : StreamKey),
        ({ deadline_ms := some 100, set_time := some (.int 0),
           completion_time := some (.int 80) } : StreamRec))] = Except.ok m := ⟨_, rfl⟩
  exact ⟨m, hm, (compliance_rate_bounds _ _ hm).1, (compliance_rate_bounds _ _ hm).2.1,
    (compliance_rate_bounds _ _ hm).2.2.1, (compliance_rate_bounds _ _ hm).2.2.2⟩

/-! ### Trace-extractor error recovery (C3) -/

/-- The event loop either consumes all events without error, or reports an
error having applied exactly the prefix of events before the raising one. -/
theorem qlogLoop_prefix_effects (l : List J) (st : AnalyzerState) :
    ((qlogLoop st l).2 = false → (qlogLoop st l).1 = qlogFold st l)
    ∧ ((qlogLoop st l).2 = true → ∃ n, (qlogLoop st l).1 = qlogFold st (l.take n)) := by
  induction l generalizing st with
  | nil =>
    refine ⟨fun _ => rfl, fun hcontra => ?_⟩
    simp [qlogLoop] at hcontra
  | cons e es ih =>
    rcases hstep : qlogStep st e with u | st'
    · refine ⟨fun hfalse => ?_, fun _ => ⟨0, ?_⟩⟩
      · simp [qlogLoop, hstep] at hfalse
      · simp [qlogLoop, hstep, qlogFold]
    · have hl : qlogLoop st (e :: es) = qlogLoop st' es := by
        simp [qlogLoop, hstep]
      have hf : qlogFold st (e :: es) = qlogFold st' es := by
        simp [qlogFold, hstep]
      refine ⟨fun hfalse => ?_, fun htrue => ?_⟩
      · rw [hl] at hfalse ⊢
        rw [hf]
        exact (ih st').1 hfalse
      · rw [hl] at htrue ⊢
        obtain ⟨n, hn⟩ := (ih st').2 htrue
        refine ⟨n + 1, ?_⟩
        simpa [qlogFold, hstep] using hn

/-- C3 (amended): a malformed or unreadable trace document is reported and
processing continues; when the failure strikes before any event is
processed (unreadable file, malformed JSON, bad top-level structure) the
aggregator state is exactly as before, and when an event inside the list
raises, exactly the prefix of events before it has been applied — so the
state may differ from the pre-file state. -/
theorem qlog_failure_prefix_effects (doc : Except String J) (st : AnalyzerState) :
    ((parse_qlog doc st).2 = false → (parse_qlog doc st).1 = qlogFold st (docEvents doc))
    ∧ ((parse_qlog doc st).2 = true →
        ∃ n, (parse_qlog doc st).1 = qlogFold st ((docEvents doc).take n)) := by
  rcases doc with msg | q
  · exact ⟨fun hh => by simp [parse_qlog] at hh, fun _ => ⟨0, rfl⟩⟩
  · rcases hq : qlogEventsOf q with u | evs
    · refine ⟨fun hh => ?_, fun _ => ⟨0, ?_⟩⟩
      · simp [parse_qlog, hq] at hh
      · simp [parse_qlog, docEvents, hq, qlogFold]
    · have h1 : parse_qlog (.ok q) st = qlogLoop st evs := by
        simp [parse_qlog, hq]
      have h2 : docEvents (.ok q) = evs := by
        simp [docEvents, hq]
      rw [h1, h2]
      exact qlogLoop_prefix_effects evs st

/-- Witness for C3's amended theorem: a document whose second event is
malformed (a bare number); the error is reported and exactly the first
event's effect is retained. -/
theorem qlog_failure_prefix_effects_witness :
    ∃ n, (parse_qlog (.ok (J.obj [("traces", J.arr [J.obj [("events", J.arr
        [J.arr [J.num 100, J.obj [("type", J.str "stream_data_blocked"),
                                  ("stream_id", J.num 4)]],
         J.num 5])]])])) initState).1
      = qlogFold initState ((docEvents (.ok (J.obj [("traces", J.arr [J.obj [("events", J.arr
        [J.arr [J.num 100, J.obj [("type", J.str "stream_data_blocked"),
                                  ("stream_id", J.num 4)]],
         J.num 5])]])]))).take n) :=
  (qlog_failure_prefix_effects _ initState).2 (by decide)

/-- C3 counterexample: the same document — malformed, hence reported as
failed — nevertheless leaves the aggregator state changed: the first
event's `stream_data_blocked` update for stream 4 has been applied, so the
record map is not "exactly as it was before the file was opened". -/
theorem qlog_error_state_changed_counterexample :
    (parse_qlog (.ok (J.obj [("traces", J.arr [J.obj [("events", J.arr
        [J.arr [J.num 100, J.obj [("type", J.str "stream_data_blocked"),
                                  ("stream_id", J.num 4)]],
         J.num 5])]])])) initState).2 = true
    ∧ (parse_qlog (.ok (J.obj [("traces", J.arr [J.obj [("events", J.arr
        [J.arr [J.num 100, J.obj [("type", J.str "stream_data_blocked"),
                                  ("stream_id", J.num 4)]],
         J.num 5])]])])) initState).1.streams
      = [((Sum.inl 4 : StreamKey), ({ blocked_events := some 1 } : StreamRec))]
    ∧ [((Sum.inl 4 : StreamKey), ({ blocked_events := some 1 } : StreamRec))]
      ≠ initState.streams :=
  ⟨rfl, rfl, by decide⟩

/-! ### Text-log line facts (C1, C6, C10) -/

/-- C1: the metrics calculation does NOT complete for records that carry
`deadline_ms`, `set_time` and `completion_time` as extracted from log
lines.  After the ordinary two-line scenario below, the record for stream
4 holds both timestamps as strings, and `completion_time - set_time`
raises `TypeError` inside `calculate_metrics` — a fatal arithmetic
failure (the divisions, by contrast, are all guarded). -/
theorem metrics_fault_on_extracted_timestamps :
    alookup (parse_client_log initState
        ["[00:00:01] Set deadline on stream 4: 100 ms (hard)",
         "[00:00:03] Stream 4 completed"]).streams (.inl 4)
      = some { deadline_ms := some 100, is_hard := some true,
               set_time := some (.str "00:00:01"), completed := some true,
               completion_time := some (.str "00:00:03") }
    ∧ calculate_metrics (parse_client_log initState
        ["[00:00:01] Set deadline on stream 4: 100 ms (hard)",
         "[00:00:03] Stream 4 completed"]).streams
      = Except.error "TypeError: unsupported operand types for -" :=
  ⟨by decide, rfl⟩

/-- C6 counterexample: a single line matched by both the drop pattern and
the completion pattern — the three patterns are not mutually disjoint, so
"a line may match at most one" is false. -/
theorem patterns_not_disjoint_counterexample :
    (searchPat tryDropAt "Stream 2: Dropped 5 bytes due to deadline and completed".data)
      = some (2, 5)
    ∧ (searchPat tryCompleteAt "Stream 2: Dropped 5 bytes due to deadline and completed".data)
      = some 2 :=
  ⟨by decide, by decide⟩

/-- C6 (amended): the three pattern matches are attempted independently
and are not mutually disjoint; on a line matching several patterns the
extractor emits one event per matching pattern.  On the line above, from
any state, both the drop and the completion events for stream 2 are
applied. -/
theorem line_can_match_two_patterns (st : AnalyzerState) :
    ((alookup (parseLine st
        "Stream 2: Dropped 5 bytes due to deadline and completed").streams
        (.inl 2)).getD {}).completed = some true
    ∧ ((alookup (parseLine st
        "Stream 2: Dropped 5 bytes due to deadline and completed").streams
        (.inl 2)).getD {}).bytes_dropped
      = some (((alookup st.streams (.inl 2)).getD {}).bytes_dropped.getD 0 + 5)
    ∧ (parseLine st "Stream 2: Dropped 5 bytes due to deadline and completed").gap_events
      = st.gap_events ++ [{ stream_id := 2, bytes_dropped := 5, time := .str "00:00:00" }] := by
  have hline : parseLine st "Stream 2: Dropped 5 bytes due to deadline and completed"
      = applyEvent (applyEvent st (.drop 2 5 (.str "00:00:00")))
          (.completed 2 (.str "00:00:00")) := rfl
  rw [hline]
  refine ⟨?_, ?_, ?_⟩
  · rw [applyEvent_streams_key _ (.completed 2 (.str "00:00:00")) (.inl 2) rfl,
      alookup_aupdate_self]
    rfl
  · rw [applyEvent_streams_key _ (.completed 2 (.str "00:00:00")) (.inl 2) rfl,
      alookup_aupdate_self,
      applyEvent_streams_key _ (.drop 2 5 (.str "00:00:00")) (.inl 2) rfl,
      alookup_aupdate_self]
    rfl
  · rfl

/-- C10: whenever the completion pattern `Stream (\d+).*completed` finds a
match in a line — the captured id being the leftmost `Stream`-token digits
followed anywhere later by `completed`, regardless of the intervening
text — the extractor emits a `Completed` event for that id: the record is
marked completed and its `completion_time` is overwritten with the line's
extracted timestamp. -/
theorem complete_match_marks_completed (line : String) (n : Nat) (st : AnalyzerState)
    (h : searchPat tryCompleteAt line.data = some n) :
    ((alookup (parseLine st line).streams (.inl (n : Int))).getD {}).completed = some true
    ∧ ((alookup (parseLine st line).streams (.inl (n : Int))).getD {}).completion_time
      = some (.str (extract_timestamp line.data)) := by
  have hline : parseLine st line
      = applyEvent
          (match searchPat tryDropAt line.data with
           | some (id, b) =>
              applyEvent
                (match searchPat tryDeadlineSetAt line.data with
                 | some (id2, ms, hard) =>
                    applyEvent st (.deadlineSet id2 ms hard (.str (extract_timestamp line.data)))
                 | none => st)
                (.drop id b (.str (extract_timestamp line.data)))
           | none =>
              match searchPat tryDeadlineSetAt line.data with
              | some (id2, ms, hard) =>
                  applyEvent st (.deadlineSet id2 ms hard (.str (extract_timestamp line.data)))
              | none => st)
          (.completed n (.str (extract_timestamp line.data))) := by
    simp only [parseLine]
    rw [h]
  rw [hline,
    applyEvent_streams_key _ (.completed n (.str (extract_timestamp line.data))) (.inl n) rfl,
    alookup_aupdate_self]
  exact ⟨rfl, rfl⟩

/-- Witness for C10: the line `Stream 4 not completed`, applied to a state
in which stream 4 already completed at `01:02:03`, marks stream 4
completed and overwrites `completion_time` with the sentinel `00:00:00` —
the intervening word `not` notwithstanding. -/
theorem complete_match_marks_completed_witness :
    ((alookup (parseLine (applyEvent initState (.completed 4 (.str "01:02:03")))
        "Stream 4 not completed").streams (.inl 4)).getD {}).completed = some true
    ∧ ((alookup (parseLine (applyEvent initState (.completed 4 (.str "01:02:03")))
        "Stream 4 not completed").streams (.inl 4)).getD {}).completion_time
      = some (.str "00:00:00") :=
  complete_match_marks_completed "Stream 4 not completed" 4
    (applyEvent initState (.completed 4 (.str "01:02:03"))) (by decide)

end DeadlineAnalyzer
